import Mathlib

/-!
Verification of the BIND 9 network-manager transport core (lib/isc/netmgr),
as a shallow embedding in Lean 4.  Pure control flow of the C functions is
translated into Lean functions over explicit state records; asynchronous
libuv and OpenSSL calls are represented by oracle inputs (their return
codes) and by emitted action traces.
-/

/-- Result codes of the isc_result_t taxonomy used by the netmgr core. -/
inductive IscResult where
  | success
  | canceled
  | timedout
  | quota
  | softquota
  | eof
  | addrinuse
  | addrnotavail
  | notconnected
  | tlserror
  | failure
  | unexpected
  deriving DecidableEq, Repr

/-- Return codes of libuv calls that the netmgr inspects by name:
zero for success, UV_EADDRINUSE, UV_EADDRNOTAVAIL, or some other
negative error code. -/
inductive UvRet where
  | ok
  | eaddrinuse
  | eaddrnotavail
  | ofail
  deriving DecidableEq, Repr

/-- Modelled from the spec: the uverr2result mapping (lib/isc/netmgr
helper not present in the sources) translates libuv error codes to
isc_result_t values; EADDRINUSE maps to ADDRINUSE, EADDRNOTAVAIL to
ADDRNOTAVAIL, and other errors to a generic failure. -/
def isc__nm_uverr2result : UvRet → IscResult
  | UvRet.ok => IscResult.success
  | UvRet.eaddrinuse => IscResult.addrinuse
  | UvRet.eaddrnotavail => IscResult.addrnotavail
  | UvRet.ofail => IscResult.failure

/-! ## C1: socket close (isc__nm_tcp_close, isc__nm_tls_close) -/

/-- State of a connected TCP socket relevant to the close path
(tcp.c).  The counters record how many times the closed flag was
stored from false to true and how many times
isc__nmsocket_prep_destroy ran. -/
structure TcpSock where
  closing : Bool
  closed : Bool
  connected : Bool
  hasQuota : Bool
  timerRunning : Bool
  timerInitialized : Bool
  hasServer : Bool
  closedTransitions : Nat
  prepDestroyCalls : Nat
  deriving DecidableEq, Repr

/-- tcp_close_cb: runs when uv_close of the socket handle completes;
stores closed=true and connected=false, detaches the server
back-pointer and calls isc__nmsocket_prep_destroy. -/
def tcp_close_cb (s : TcpSock) : TcpSock :=
  { s with closed := true,
           closedTransitions :=
             s.closedTransitions + (if s.closed then 0 else 1),
           connected := false,
           hasServer := false,
           prepDestroyCalls := s.prepDestroyCalls + 1 }

/-- tcp_close_direct: detaches the quota, stops the read and the timer,
and closes the uv handle; whether or not the timer was initialized
(timer_close_cb chains into it), the uv close callback tcp_close_cb
runs exactly once. -/
def tcp_close_direct (s : TcpSock) : TcpSock :=
  tcp_close_cb { s with hasQuota := false,
                        timerRunning := false,
                        timerInitialized := false }

/-- isc__nm_tcp_close (tcp.c): the closing flag is raised by a
compare-and-swap from false to true; a caller that loses the CAS
returns immediately.  The winner runs tcp_close_direct (directly on
the owning worker, or via a tcpclose event that calls the same
function). -/
def isc__nm_tcp_close (s : TcpSock) : TcpSock :=
  if s.closing then s
  else tcp_close_direct { s with closing := true }

/-- States of the TLS stream state machine (tcp.c TLS part). -/
inductive TlsState where
  | init
  | handshake
  | io
  | closing
  | closed
  | error
  deriving DecidableEq, Repr

/-- State of a TLS wrapper socket relevant to close and the send-queue
drain.  The send queue holds the lengths of the enqueued plaintext
requests. -/
structure TlsSock where
  closing : Bool
  closed : Bool
  tlsState : TlsState
  timerRunning : Bool
  timerInitialized : Bool
  hasOuterhandle : Bool
  hasListener : Bool
  hasSsl : Bool
  hasAppBio : Bool
  nsending : Nat
  sends : List Nat
  closedTransitions : Nat
  prepDestroyCalls : Nat
  deriving DecidableEq, Repr

/-- Final teardown arm of tls_close_direct: pauses and detaches the
outer handle, drops the listener, frees SSL and BIOs, marks the state
CLOSED and stores closed=true, then detaches the socket (which lets
the destroy path run). -/
def tls_close_teardown (s : TlsSock) : TlsSock :=
  { s with hasOuterhandle := false,
           hasListener := false,
           hasSsl := false,
           hasAppBio := false,
           tlsState := TlsState.closed,
           closed := true,
           closedTransitions :=
             s.closedTransitions + (if s.closed then 0 else 1),
           prepDestroyCalls := s.prepDestroyCalls + 1 }

/-- tls_close_direct: sets the state to CLOSING and stops the timer.
If the timer handle was initialized it is uv_closed first and its
close callback re-enters tls_close_direct with timer_initialized
false, which then runs the final teardown; so teardown runs exactly
once on either path. -/
def tls_close_direct (s : TlsSock) : TlsSock :=
  let s1 := { s with tlsState := TlsState.closing, timerRunning := false }
  if s1.timerInitialized then
    tls_close_teardown { s1 with timerInitialized := false }
  else
    tls_close_teardown s1

/-- isc__nm_tls_close (tcp.c TLS part): same closing-flag CAS guard as
the TCP close; the winner runs tls_close_direct directly or via a
tlsclose event. -/
def isc__nm_tls_close (s : TlsSock) : TlsSock :=
  if s.closing then s
  else tls_close_direct { s with closing := true }

/-- C1: close is idempotent for both TCP and TLS sockets.  Only the
first call wins the closing false-to-true CAS and performs the close
path; any further sequence of calls leaves the state unchanged, so a
socket that starts with closing=false and closed=false sees exactly
one closed=true transition and exactly one destroy call however many
times close is invoked. -/
theorem c1_close_idempotent :
    (∀ (s : TcpSock) (n : Nat), s.closing = false → s.closed = false →
      isc__nm_tcp_close^[n + 1] s = isc__nm_tcp_close s ∧
      (isc__nm_tcp_close^[n + 1] s).closedTransitions =
        s.closedTransitions + 1 ∧
      (isc__nm_tcp_close^[n + 1] s).prepDestroyCalls =
        s.prepDestroyCalls + 1) ∧
    (∀ (s : TlsSock) (n : Nat), s.closing = false → s.closed = false →
      isc__nm_tls_close^[n + 1] s = isc__nm_tls_close s ∧
      (isc__nm_tls_close^[n + 1] s).closedTransitions =
        s.closedTransitions + 1 ∧
      (isc__nm_tls_close^[n + 1] s).prepDestroyCalls =
        s.prepDestroyCalls + 1) := by
  constructor
  · intro s n hcg hcd
    have hstep : ∀ t : TcpSock, t.closing = true →
        isc__nm_tcp_close t = t := by
      intro t ht
      simp [isc__nm_tcp_close, ht]
    have hone : (isc__nm_tcp_close s).closing = true := by
      simp [isc__nm_tcp_close, hcg, tcp_close_direct, tcp_close_cb]
    have hiter : ∀ m : Nat,
        isc__nm_tcp_close^[m + 1] s = isc__nm_tcp_close s := by
      intro m
      induction m with
      | zero => rfl
      | succ k ih =>
          rw [Function.iterate_succ_apply', ih, hstep _ hone]
    refine ⟨hiter n, ?_, ?_⟩ <;>
      simp [hiter n, isc__nm_tcp_close, hcg, tcp_close_direct,
            tcp_close_cb, hcd]
  · intro s n hcg hcd
    have hstep : ∀ t : TlsSock, t.closing = true →
        isc__nm_tls_close t = t := by
      intro t ht
      simp [isc__nm_tls_close, ht]
    have hone : (isc__nm_tls_close s).closing = true := by
      by_cases hti : s.timerInitialized <;>
        simp [isc__nm_tls_close, hcg, tls_close_direct,
              tls_close_teardown, hti]
    have hiter : ∀ m : Nat,
        isc__nm_tls_close^[m + 1] s = isc__nm_tls_close s := by
      intro m
      induction m with
      | zero => rfl
      | succ k ih =>
          rw [Function.iterate_succ_apply', ih, hstep _ hone]
    refine ⟨hiter n, ?_, ?_⟩ <;>
      by_cases hti : s.timerInitialized <;>
      simp [hiter n, isc__nm_tls_close, hcg, tls_close_direct,
            tls_close_teardown, hti, hcd]

/-- Witness for C1 at a concrete socket state: three close calls on a
fresh TCP socket equal one call, with one closed transition and one
destroy. -/
theorem c1_close_idempotent_witness :
    ({ closing := false, closed := false, connected := true,
       hasQuota := true, timerRunning := true, timerInitialized := true,
       hasServer := true, closedTransitions := 0,
       prepDestroyCalls := 0 } : TcpSock).closing = false ∧
    isc__nm_tcp_close^[3]
      ({ closing := false, closed := false, connected := true,
         hasQuota := true, timerRunning := true, timerInitialized := true,
         hasServer := true, closedTransitions := 0,
         prepDestroyCalls := 0 } : TcpSock) =
    isc__nm_tcp_close
      ({ closing := false, closed := false, connected := true,
         hasQuota := true, timerRunning := true, timerInitialized := true,
         hasServer := true, closedTransitions := 0,
         prepDestroyCalls := 0 } : TcpSock) := by
  refine ⟨rfl, ?_⟩
  exact (c1_close_idempotent.1
    { closing := false, closed := false, connected := true,
      hasQuota := true, timerRunning := true, timerInitialized := true,
      hasServer := true, closedTransitions := 0,
      prepDestroyCalls := 0 } 2 rfl rfl).1

/-! ## Read path: read_cb, failed_read_cb, readtimeout_cb, cancelread -/

/-- Statistics counters incremented by the TCP code paths. -/
inductive StatId where
  | recvfail
  | sendfail
  | acceptfail
  | accept
  | openok
  | openfail
  | bindfail
  deriving DecidableEq, Repr

/-- Observable actions emitted along the read path: a delivery of the
consumer's receive callback (isc__nm_readcb, modelled from the spec as
invoking the recv callback with the given result and region length),
a statistics increment, a read-timer restart with a timeout value, and
a handle detach. -/
inductive ReadEvent where
  | recvCallback (r : IscResult) (len : Nat)
  | statsIncrement (st : StatId)
  | timerRestart (timeout : Nat)
  | handleDetach
  deriving DecidableEq, Repr

/-- State of a connected TCP socket relevant to the streaming-read
path (tcp.c). -/
structure TcpReadSock where
  active : Bool
  client : Bool
  processing : Bool
  reading : Bool
  readTimeout : Nat
  timerRunning : Bool
  timerInitialized : Bool
  hasQuota : Bool
  hasRecvCb : Bool
  closed : Bool
  deriving DecidableEq, Repr

/-- failed_read_cb (tcp.c): stops the read timer if initialized,
detaches the quota, stops the uv read, and if a recv callback is
installed clears the callback binding (isc__nmsocket_clearcb) and
delivers it with the given result. -/
def failed_read_cb (s : TcpReadSock) (result : IscResult) :
    TcpReadSock × List ReadEvent :=
  let s1 := { s with
    timerRunning := if s.timerInitialized then false else s.timerRunning,
    hasQuota := false,
    reading := false }
  if s1.hasRecvCb then
    ({ s1 with hasRecvCb := false }, [ReadEvent.recvCallback result 0])
  else
    (s1, [])

/-- Outcome of one uv read delivery: a non-negative byte count, the
UV_EOF code, or any other negative error code. -/
inductive Nread where
  | bytes (n : Nat)
  | eof
  | err
  deriving DecidableEq, Repr

/-- read_cb (tcp.c): on a non-negative length the recv callback is
invoked with SUCCESS and the region, and the read timer restarted;
on UV_EOF, failed_read_cb delivers ISC_R_EOF; on any other error the
recv-fail statistics counter is incremented and failed_read_cb again
delivers ISC_R_EOF. -/
def read_cb (s : TcpReadSock) (nread : Nread) :
    TcpReadSock × List ReadEvent :=
  match nread with
  | Nread.bytes n =>
      let evs := if s.hasRecvCb
        then [ReadEvent.recvCallback IscResult.success n]
        else []
      if s.timerInitialized && s.readTimeout ≠ 0 then
        ({ s with timerRunning := true },
          evs ++ [ReadEvent.timerRestart s.readTimeout])
      else
        (s, evs)
  | Nread.eof => failed_read_cb s IscResult.eof
  | Nread.err =>
      let p := failed_read_cb s IscResult.eof
      (p.1, ReadEvent.statsIncrement StatId.recvfail :: p.2)

/-- readtimeout_cb (tcp.c): if the socket is marked processing the
timer is restarted with the socket's read timeout and nothing else
happens; otherwise the in-progress read is failed with TIMEDOUT. -/
def readtimeout_cb (s : TcpReadSock) : TcpReadSock × List ReadEvent :=
  if s.processing then
    ({ s with timerRunning := true },
      [ReadEvent.timerRestart s.readTimeout])
  else
    failed_read_cb s IscResult.timedout

/-- isc__nm_async_tcpcancel (tcp.c): handler of the tcpcancel event
posted by isc__nm_tcp_cancelread to the socket's owning worker.  It
stops the uv read, fails the read with ISC_R_EOF only when the socket
is a client-mode socket, and detaches the handle carried by the
event. -/
def isc__nm_async_tcpcancel (s : TcpReadSock) :
    TcpReadSock × List ReadEvent :=
  let s1 := { s with reading := false }
  let p := if s1.client then failed_read_cb s1 IscResult.eof else (s1, [])
  (p.1, p.2 ++ [ReadEvent.handleDetach])

/-- C2 counterexample: at a concrete connected socket with a receive
callback installed, a read error other than EOF (negative nread that
is not UV_EOF) delivers the receive callback with result EOF, not
CANCELED, and does not set the closed flag; so the claim that other
errors deliver CANCELED and close the socket is false on the code. -/
theorem c2_counterexample :
    (read_cb
      { active := true, client := true, processing := false,
        reading := true, readTimeout := 500, timerRunning := true,
        timerInitialized := true, hasQuota := false, hasRecvCb := true,
        closed := false } Nread.err).2.count
        (ReadEvent.recvCallback IscResult.canceled 0) = 0 ∧
    (read_cb
      { active := true, client := true, processing := false,
        reading := true, readTimeout := 500, timerRunning := true,
        timerInitialized := true, hasQuota := false, hasRecvCb := true,
        closed := false } Nread.err).2.count
        (ReadEvent.recvCallback IscResult.eof 0) = 1 ∧
    (read_cb
      { active := true, client := true, processing := false,
        reading := true, readTimeout := 500, timerRunning := true,
        timerInitialized := true, hasQuota := false, hasRecvCb := true,
        closed := false } Nread.err).1.closed = false := by
  decide

/-- C2 amended: for every TCP streaming read delivery with a receive
callback installed, EOF delivers the receive callback with result EOF,
and every other read error also delivers the receive callback with
result EOF, additionally incrementing the recv-fail statistics
counter; in neither case does read_cb itself set the closed flag. -/
theorem c2_read_errors_deliver_eof (s : TcpReadSock)
    (h : s.hasRecvCb = true) :
    (read_cb s Nread.eof).2 = [ReadEvent.recvCallback IscResult.eof 0] ∧
    (read_cb s Nread.err).2 =
      [ReadEvent.statsIncrement StatId.recvfail,
       ReadEvent.recvCallback IscResult.eof 0] ∧
    (read_cb s Nread.eof).1.closed = s.closed ∧
    (read_cb s Nread.err).1.closed = s.closed := by
  refine ⟨?_, ?_, ?_, ?_⟩ <;> simp [read_cb, failed_read_cb, h]

/-- Witness for C2's amended theorem at a concrete socket state. -/
theorem c2_read_errors_deliver_eof_witness :
    (read_cb
      { active := true, client := false, processing := false,
        reading := true, readTimeout := 30000, timerRunning := true,
        timerInitialized := true, hasQuota := true, hasRecvCb := true,
        closed := false } Nread.eof).2 =
      [ReadEvent.recvCallback IscResult.eof 0] :=
  (c2_read_errors_deliver_eof
    { active := true, client := false, processing := false,
      reading := true, readTimeout := 30000, timerRunning := true,
      timerInitialized := true, hasQuota := true, hasRecvCb := true,
      closed := false } rfl).1

/-- C3: when the read timer fires with the processing flag set, the
timer is restarted with the socket's read timeout and no failure is
delivered (in particular no TIMEDOUT callback); with processing clear
and a receive callback installed, the read fails with TIMEDOUT. -/
theorem c3_readtimeout_processing (s : TcpReadSock) :
    (s.processing = true →
      readtimeout_cb s =
        ({ s with timerRunning := true },
          [ReadEvent.timerRestart s.readTimeout]) ∧
      ∀ l, ReadEvent.recvCallback IscResult.timedout l ∉
        (readtimeout_cb s).2) ∧
    (s.processing = false → s.hasRecvCb = true →
      (readtimeout_cb s).2 =
        [ReadEvent.recvCallback IscResult.timedout 0]) := by
  constructor
  · intro hp
    constructor
    · simp [readtimeout_cb, hp]
    · intro l
      simp [readtimeout_cb, hp]
  · intro hp hr
    simp [readtimeout_cb, failed_read_cb, hp, hr]

/-- Witness for C3 at a concrete socket state in both modes. -/
theorem c3_readtimeout_processing_witness :
    (readtimeout_cb
      { active := true, client := true, processing := true,
        reading := true, readTimeout := 500, timerRunning := true,
        timerInitialized := true, hasQuota := false, hasRecvCb := true,
        closed := false }).2 = [ReadEvent.timerRestart 500] ∧
    (readtimeout_cb
      { active := true, client := true, processing := false,
        reading := true, readTimeout := 500, timerRunning := true,
        timerInitialized := true, hasQuota := false, hasRecvCb := true,
        closed := false }).2 =
      [ReadEvent.recvCallback IscResult.timedout 0] := by
  constructor
  · have h := (c3_readtimeout_processing
      { active := true, client := true, processing := true,
        reading := true, readTimeout := 500, timerRunning := true,
        timerInitialized := true, hasQuota := false, hasRecvCb := true,
        closed := false }).1 rfl
    rw [h.1]
  · exact (c3_readtimeout_processing
      { active := true, client := true, processing := false,
        reading := true, readTimeout := 500, timerRunning := true,
        timerInitialized := true, hasQuota := false, hasRecvCb := true,
        closed := false }).2 rfl rfl

/-- C7 counterexample: at a concrete server-side connected socket
(client flag false, accepted rather than connect-created) with a
receive callback installed and a read in progress, the tcpcancel
handler detaches the handle but never invokes the read callback, so
the claim that cancelread delivers EOF to the read callback for every
connected TCP socket is false on the code. -/
theorem c7_counterexample :
    (isc__nm_async_tcpcancel
      { active := true, client := false, processing := false,
        reading := true, readTimeout := 500, timerRunning := true,
        timerInitialized := true, hasQuota := false, hasRecvCb := true,
        closed := false }).2 = [ReadEvent.handleDetach] ∧
    (isc__nm_async_tcpcancel
      { active := true, client := false, processing := false,
        reading := true, readTimeout := 500, timerRunning := true,
        timerInitialized := true, hasQuota := false, hasRecvCb := true,
        closed := false }).2.count
      (ReadEvent.recvCallback IscResult.eof 0) = 0 := by
  decide

/-- C7 amended: for a client-mode connected TCP socket with an
in-progress streaming read, the tcpcancel event handler stops the
read, invokes the consumer's read callback with EOF, and detaches the
handle; a second invocation leaves the state unchanged and delivers no
further read callback (only the handle carried by the second event is
detached), so repeated cancelread has the same effect as one. -/
theorem c7_cancelread (s : TcpReadSock) (hc : s.client = true)
    (hr : s.hasRecvCb = true) :
    (isc__nm_async_tcpcancel s).1.reading = false ∧
    (isc__nm_async_tcpcancel s).2 =
      [ReadEvent.recvCallback IscResult.eof 0, ReadEvent.handleDetach] ∧
    isc__nm_async_tcpcancel (isc__nm_async_tcpcancel s).1 =
      ((isc__nm_async_tcpcancel s).1, [ReadEvent.handleDetach]) := by
  refine ⟨?_, ?_, ?_⟩ <;>
    by_cases hti : s.timerInitialized <;>
    simp [isc__nm_async_tcpcancel, failed_read_cb, hc, hr, hti]

/-- Witness for C7's amended theorem at a concrete client socket. -/
theorem c7_cancelread_witness :
    (isc__nm_async_tcpcancel
      { active := true, client := true, processing := false,
        reading := true, readTimeout := 500, timerRunning := true,
        timerInitialized := true, hasQuota := false, hasRecvCb := true,
        closed := false }).2 =
      [ReadEvent.recvCallback IscResult.eof 0, ReadEvent.handleDetach] :=
  (c7_cancelread
    { active := true, client := true, processing := false,
      reading := true, readTimeout := 500, timerRunning := true,
      timerInitialized := true, hasQuota := false, hasRecvCb := true,
      closed := false } rfl rfl).2.1

/-! ## C4: accept_connection -/

/-- Observable actions of the accept path (tcp.c accept_connection). -/
inductive AcceptEvent where
  | quotaDetach
  | quotaCbEnqueued
  | statsIncrement (st : StatId)
  | childCreated (worker : Nat)
  deriving DecidableEq, Repr

/-- Oracle inputs of one accept_connection run: the listener's active
flag, the manager's closing flag, whether a quota is configured on the
listener (pquota), the result isc_quota_attach_cb would report, and
the return codes of uv_accept and isc_uv_export plus the random child
worker draw. -/
structure AcceptEnv where
  ssockActive : Bool
  mgrClosing : Bool
  hasPquota : Bool
  quotaAttachResult : IscResult
  uvAcceptR : UvRet
  uvExportR : UvRet
  childWorker : Nat
  deriving DecidableEq, Repr

/-- accept_connection (tcp.c): called with quotaArg=false directly
from the connection callback, or with quotaArg=true from the quota
continuation with a slot already held.  If the listener is inactive or
the manager is closing, any held quota slot is detached and CANCELED
returned.  If a quota is configured and no slot is held yet,
isc_quota_attach_cb is called (modelled from the spec: on exhaustion
it enqueues the continuation callback and reports QUOTA); a QUOTA
result increments the accept-fail counter and returns.  Otherwise the
accept counter is incremented, uv_accept and isc_uv_export run (a
failure of either detaches the quota slot and returns the mapped
error), and on success a child socket is created and handed to a
random worker. -/
def accept_connection (env : AcceptEnv) (quotaArg : Bool) :
    IscResult × List AcceptEvent :=
  if env.ssockActive = false ∨ env.mgrClosing = true then
    (IscResult.canceled,
      if quotaArg then [AcceptEvent.quotaDetach] else [])
  else if env.hasPquota = true ∧ quotaArg = false ∧
      env.quotaAttachResult = IscResult.quota then
    (IscResult.quota,
      [AcceptEvent.quotaCbEnqueued,
       AcceptEvent.statsIncrement StatId.acceptfail])
  else
    let haveQuota := quotaArg || env.hasPquota
    if env.uvAcceptR ≠ UvRet.ok then
      (isc__nm_uverr2result env.uvAcceptR,
        [AcceptEvent.statsIncrement StatId.accept] ++
          (if haveQuota then [AcceptEvent.quotaDetach] else []))
    else if env.uvExportR ≠ UvRet.ok then
      (IscResult.failure,
        [AcceptEvent.statsIncrement StatId.accept] ++
          (if haveQuota then [AcceptEvent.quotaDetach] else []))
    else
      (IscResult.success,
        [AcceptEvent.statsIncrement StatId.accept,
         AcceptEvent.childCreated env.childWorker])

/-- C4: with the manager closing, the accept path detaches any held
quota slot and returns CANCELED without creating a child socket; with
the listener live, a configured quota, no slot held, and the quota
full, the accept-fail counter is incremented and QUOTA is returned
with the continuation callback left enqueued and no child created. -/
theorem c4_accept_closing_and_quota (env : AcceptEnv) (quotaArg : Bool) :
    (env.mgrClosing = true →
      (accept_connection env quotaArg).1 = IscResult.canceled ∧
      (quotaArg = true →
        AcceptEvent.quotaDetach ∈ (accept_connection env quotaArg).2) ∧
      (∀ w, AcceptEvent.childCreated w ∉
        (accept_connection env quotaArg).2)) ∧
    (env.ssockActive = true → env.mgrClosing = false →
      env.hasPquota = true → quotaArg = false →
      env.quotaAttachResult = IscResult.quota →
      (accept_connection env quotaArg).1 = IscResult.quota ∧
      AcceptEvent.statsIncrement StatId.acceptfail ∈
        (accept_connection env quotaArg).2 ∧
      AcceptEvent.quotaCbEnqueued ∈ (accept_connection env quotaArg).2 ∧
      (∀ w, AcceptEvent.childCreated w ∉
        (accept_connection env quotaArg).2)) := by
  constructor
  · intro hcl
    refine ⟨?_, ?_, ?_⟩ <;>
      simp [accept_connection, hcl]
  · intro ha hcl hq hqa hr
    refine ⟨?_, ?_, ?_, ?_⟩ <;>
      simp [accept_connection, ha, hcl, hq, hqa, hr]

/-- Witness for C4 at concrete environments for both branches. -/
theorem c4_accept_closing_and_quota_witness :
    (accept_connection
      { ssockActive := true, mgrClosing := true, hasPquota := true,
        quotaAttachResult := IscResult.success, uvAcceptR := UvRet.ok,
        uvExportR := UvRet.ok, childWorker := 2 } true).1 =
      IscResult.canceled ∧
    (accept_connection
      { ssockActive := true, mgrClosing := false, hasPquota := true,
        quotaAttachResult := IscResult.quota, uvAcceptR := UvRet.ok,
        uvExportR := UvRet.ok, childWorker := 2 } false).1 =
      IscResult.quota := by
  constructor
  · exact ((c4_accept_closing_and_quota
      { ssockActive := true, mgrClosing := true, hasPquota := true,
        quotaAttachResult := IscResult.success, uvAcceptR := UvRet.ok,
        uvExportR := UvRet.ok, childWorker := 2 } true).1 rfl).1
  · exact ((c4_accept_closing_and_quota
      { ssockActive := true, mgrClosing := false, hasPquota := true,
        quotaAttachResult := IscResult.quota, uvAcceptR := UvRet.ok,
        uvExportR := UvRet.ok, childWorker := 2 } false).2
      rfl rfl rfl rfl rfl).1

/-! ## C5: isc__nm_async_tcplisten -/

/-- Observable actions of the listen path. -/
inductive ListenEvent where
  | statsIncrement (st : StatId)
  | rebindReuse
  | rebindFreebind
  deriving DecidableEq, Repr

/-- Oracle inputs of one isc__nm_async_tcplisten run: return codes of
uv_tcp_init, uv_fileno, the uv_tcp_getsockname probe after the first
bind, whether enabling SO_REUSEADDR/SO_REUSEPORT succeeded, the probe
after the reuse rebind, whether enabling IP_FREEBIND succeeded, the
probe after the freebind rebind, the final duplicate probe, and
uv_listen. -/
structure ListenEnv where
  initR : UvRet
  filenoR : UvRet
  gsn1 : UvRet
  reuseOk : Bool
  gsn2 : UvRet
  freebindOk : Bool
  gsn3 : UvRet
  gsn4 : UvRet
  listenR : UvRet
  deriving DecidableEq, Repr

/-- Outcome of one isc__nm_async_tcplisten run. -/
structure ListenOutcome where
  listening : Bool
  listenError : Bool
  result : IscResult
  events : List ListenEvent
  deriving DecidableEq, Repr

/-- The getsockname probe sequence of isc__nm_async_tcplisten: the
probe after the delayed-error bind, then if it reported EADDRINUSE and
both reuse socket options could be set, a rebind and re-probe; then if
the current code is EADDRNOTAVAIL and IP_FREEBIND could be set, a
rebind and re-probe. -/
def tcplisten_probe (env : ListenEnv) : UvRet × List ListenEvent :=
  let r1 := env.gsn1
  let p2 := if r1 = UvRet.eaddrinuse ∧ env.reuseOk = true
    then (env.gsn2, [ListenEvent.rebindReuse])
    else (r1, [])
  let p3 := if p2.1 = UvRet.eaddrnotavail ∧ env.freebindOk = true
    then (env.gsn3, p2.2 ++ [ListenEvent.rebindFreebind])
    else p2
  p3

/-- isc__nm_async_tcplisten (tcp.c): initializes the uv handle, binds
with delayed-error semantics and probes via getsockname with the
retry ladder of tcplisten_probe; any remaining probe failure sets the
bind-fail counter, stores the mapped result and the listen-error flag
and never sets listening.  Otherwise a second probe guards against the
delayed error, uv_listen runs, and on success the listening flag is
set while the socket's result field keeps its initial SUCCESS. -/
def isc__nm_async_tcplisten (env : ListenEnv) : ListenOutcome :=
  if env.initR ≠ UvRet.ok then
    { listening := false, listenError := true,
      result := isc__nm_uverr2result env.initR,
      events := [ListenEvent.statsIncrement StatId.openfail] }
  else if env.filenoR ≠ UvRet.ok then
    { listening := false, listenError := true,
      result := isc__nm_uverr2result env.filenoR,
      events := [ListenEvent.statsIncrement StatId.openok,
                 ListenEvent.statsIncrement StatId.bindfail] }
  else
    let p := tcplisten_probe env
    if p.1 ≠ UvRet.ok then
      { listening := false, listenError := true,
        result := isc__nm_uverr2result p.1,
        events := [ListenEvent.statsIncrement StatId.openok] ++ p.2 ++
                  [ListenEvent.statsIncrement StatId.bindfail] }
    else if env.gsn4 ≠ UvRet.ok then
      { listening := false, listenError := true,
        result := isc__nm_uverr2result env.gsn4,
        events := [ListenEvent.statsIncrement StatId.openok] ++ p.2 }
    else if env.listenR ≠ UvRet.ok then
      { listening := false, listenError := true,
        result := isc__nm_uverr2result env.listenR,
        events := [ListenEvent.statsIncrement StatId.openok] ++ p.2 }
    else
      { listening := true, listenError := false,
        result := IscResult.success,
        events := [ListenEvent.statsIncrement StatId.openok] ++ p.2 }

/-- C5: with the uv handle opened and its descriptor available, an
EADDRINUSE probe triggers the rebind after enabling the reuse socket
options, an EADDRNOTAVAIL code after that step triggers the rebind
with IP_FREEBIND, and when the probe ladder still ends in EADDRINUSE
or EADDRNOTAVAIL the listen operation fails with ADDRINUSE or
ADDRNOTAVAIL respectively, the listen-error flag is set, and the
listening flag is never set. -/
theorem c5_listen_bind_retry (env : ListenEnv)
    (hinit : env.initR = UvRet.ok) (hfd : env.filenoR = UvRet.ok) :
    (env.gsn1 = UvRet.eaddrinuse → env.reuseOk = true →
      ListenEvent.rebindReuse ∈ (isc__nm_async_tcplisten env).events) ∧
    ((if env.gsn1 = UvRet.eaddrinuse ∧ env.reuseOk = true then env.gsn2
        else env.gsn1) = UvRet.eaddrnotavail → env.freebindOk = true →
      ListenEvent.rebindFreebind ∈ (isc__nm_async_tcplisten env).events) ∧
    ((tcplisten_probe env).1 = UvRet.eaddrinuse →
      (isc__nm_async_tcplisten env).result = IscResult.addrinuse ∧
      (isc__nm_async_tcplisten env).listenError = true ∧
      (isc__nm_async_tcplisten env).listening = false) ∧
    ((tcplisten_probe env).1 = UvRet.eaddrnotavail →
      (isc__nm_async_tcplisten env).result = IscResult.addrnotavail ∧
      (isc__nm_async_tcplisten env).listenError = true ∧
      (isc__nm_async_tcplisten env).listening = false) := by
  have hmem : ∀ e, e ∈ (tcplisten_probe env).2 →
      e ∈ (isc__nm_async_tcplisten env).events := by
    intro e he
    simp only [isc__nm_async_tcplisten, hinit, hfd, ne_eq]
    split_ifs <;> simp_all
  refine ⟨?_, ?_, ?_, ?_⟩
  · intro h1 h2
    apply hmem
    by_cases h3 : env.gsn2 = UvRet.eaddrnotavail ∧ env.freebindOk = true <;>
      simp [tcplisten_probe, h1, h2, h3]
  · intro h1 h2
    apply hmem
    by_cases h3 : env.gsn1 = UvRet.eaddrinuse ∧ env.reuseOk = true
    · rw [if_pos h3] at h1
      simp [tcplisten_probe, h3, h1, h2]
    · rw [if_neg h3] at h1
      simp [tcplisten_probe, h3, h1, h2]
  · intro hp
    simp [isc__nm_async_tcplisten, hinit, hfd, hp, isc__nm_uverr2result]
  · intro hp
    simp [isc__nm_async_tcplisten, hinit, hfd, hp, isc__nm_uverr2result]

/-- Witness for C5 at a concrete environment: the first probe reports
EADDRINUSE, the reuse rebind is taken, the re-probe still reports
EADDRINUSE, and the operation fails with ADDRINUSE without ever
listening. -/
theorem c5_listen_bind_retry_witness :
    ListenEvent.rebindReuse ∈
      (isc__nm_async_tcplisten
        { initR := UvRet.ok, filenoR := UvRet.ok,
          gsn1 := UvRet.eaddrinuse, reuseOk := true,
          gsn2 := UvRet.eaddrinuse, freebindOk := true,
          gsn3 := UvRet.ok, gsn4 := UvRet.ok,
          listenR := UvRet.ok }).events ∧
    (isc__nm_async_tcplisten
      { initR := UvRet.ok, filenoR := UvRet.ok,
        gsn1 := UvRet.eaddrinuse, reuseOk := true,
        gsn2 := UvRet.eaddrinuse, freebindOk := true,
        gsn3 := UvRet.ok, gsn4 := UvRet.ok,
        listenR := UvRet.ok }).result = IscResult.addrinuse := by
  constructor
  · exact (c5_listen_bind_retry
      { initR := UvRet.ok, filenoR := UvRet.ok,
        gsn1 := UvRet.eaddrinuse, reuseOk := true,
        gsn2 := UvRet.eaddrinuse, freebindOk := true,
        gsn3 := UvRet.ok, gsn4 := UvRet.ok,
        listenR := UvRet.ok } rfl rfl).1 rfl rfl
  · exact ((c5_listen_bind_retry
      { initR := UvRet.ok, filenoR := UvRet.ok,
        gsn1 := UvRet.eaddrinuse, reuseOk := true,
        gsn2 := UvRet.eaddrinuse, freebindOk := true,
        gsn3 := UvRet.ok, gsn4 := UvRet.ok,
        listenR := UvRet.ok } rfl rfl).2.2.1 (by decide)).1

/-! ## C6: draining the TLS plaintext send queue with SSL_write -/

/-- A queued plaintext send request: an identifier and the uvbuf
length of the region to write. -/
structure TlsReq where
  id : Nat
  len : Nat
  deriving DecidableEq, Repr

/-- Return of one SSL_write call: a negative code (want-read,
want-write or a dead stream) or a non-negative count of bytes
accepted. -/
inductive SslWriteRv where
  | err
  | wrote (n : Nat)
  deriving DecidableEq, Repr

/-- Observable actions of the TLS send path. -/
inductive TlsEvent where
  | sendCallbackEv (id : Nat) (r : IscResult)
  | connectCallbackEv (r : IscResult)
  | reqPut (id : Nat)
  | doBioScheduled
  | doBioCalled
  deriving DecidableEq, Repr

/-- State of the TLS socket relevant to the send-queue drain. -/
structure TlsDrainSock where
  tlsState : TlsState
  server : Bool
  nsending : Nat
  sends : List TlsReq
  deriving DecidableEq, Repr

/-- The send-queue drain loop at the end of tls_do_bio (tcp.c TLS
part), driven by one SSL_write outcome per iteration.  A negative
SSL_write return leaves the head request queued and, when no carrier
send is in flight, schedules an asynchronous re-run of tls_do_bio.  A
return different from the full uvbuf length (in the C source, after a
client-side connect-callback guard whose second operand is the enum
constant TLS_INIT) marks the stream TLS_ERROR and schedules a re-run;
the request is not completed and no remainder is queued.  A
full-length write unlinks the request, fires its send callback with
SUCCESS, releases it and continues with the next element. -/
def tls_do_bio_drain_sends (s : TlsDrainSock) :
    List SslWriteRv → TlsDrainSock × List TlsEvent
  | [] => (s, [])
  | rv :: rest =>
    match s.sends with
    | [] => (s, [])
    | req :: tail =>
      match rv with
      | SslWriteRv.err =>
          (s, if s.nsending = 0 then [TlsEvent.doBioScheduled] else [])
      | SslWriteRv.wrote n =>
        if n ≠ req.len then
          ({ s with tlsState := TlsState.error },
            (if s.server = false ∧ s.tlsState = TlsState.handshake
              then [TlsEvent.connectCallbackEv IscResult.success]
              else []) ++ [TlsEvent.doBioScheduled])
        else
          let p := tls_do_bio_drain_sends { s with sends := tail } rest
          (p.1, TlsEvent.sendCallbackEv req.id IscResult.success ::
                TlsEvent.reqPut req.id :: p.2)

/-- isc__nm_async_tlssend (tcp.c TLS part), the handling of one send
request arriving at the worker: an inactive socket cancels the send;
a non-empty queue appends the request and runs tls_do_bio; otherwise
SSL_write is attempted directly, a negative return enqueues the
request for the BIO layer, a return different from the full length
marks TLS_ERROR and schedules a re-run, and a full write completes the
send with SUCCESS and runs tls_do_bio. -/
def isc__nm_async_tlssend (s : TlsDrainSock) (req : TlsReq)
    (inactive : Bool) (rv : SslWriteRv) : TlsDrainSock × List TlsEvent :=
  if inactive then
    (s, [TlsEvent.sendCallbackEv req.id IscResult.canceled,
         TlsEvent.reqPut req.id])
  else if s.sends ≠ [] then
    ({ s with sends := s.sends ++ [req] }, [TlsEvent.doBioCalled])
  else
    match rv with
    | SslWriteRv.err =>
        ({ s with sends := s.sends ++ [req] }, [TlsEvent.doBioCalled])
    | SslWriteRv.wrote n =>
      if n ≠ req.len then
        ({ s with tlsState := TlsState.error }, [TlsEvent.doBioScheduled])
      else
        (s, [TlsEvent.sendCallbackEv req.id IscResult.success,
             TlsEvent.reqPut req.id, TlsEvent.doBioCalled])

/-- C6 counterexample: at a concrete server-side TLS socket in IO
state whose queue holds one request of length 2, an SSL_write that
accepts only 1 byte (a short write, fewer bytes than the element's
length) marks the stream TLS_ERROR and leaves the original request
queued: no continuation for the one remaining byte is enqueued and the
send is not completed, so the claim that a short write enqueues a
continuation for the remainder is false on the code. -/
theorem c6_counterexample :
    (tls_do_bio_drain_sends
      { tlsState := TlsState.io, server := true, nsending := 0,
        sends := [{ id := 1, len := 2 }] }
      [SslWriteRv.wrote 1]).1.tlsState = TlsState.error ∧
    (tls_do_bio_drain_sends
      { tlsState := TlsState.io, server := true, nsending := 0,
        sends := [{ id := 1, len := 2 }] }
      [SslWriteRv.wrote 1]).1.sends = [{ id := 1, len := 2 }] ∧
    (tls_do_bio_drain_sends
      { tlsState := TlsState.io, server := true, nsending := 0,
        sends := [{ id := 1, len := 2 }] }
      [SslWriteRv.wrote 1]).2 = [TlsEvent.doBioScheduled] := by
  decide

/-- C6 amended: per element of the drained TLS send queue, a negative
SSL_write return leaves the whole request queued for a later retry
(rescheduling the BIO loop when no carrier send is in flight); any
non-negative return differing from the element's length — a zero-byte
write included — is treated as a failure, marking the stream TLS_ERROR
without completing the send or queueing a remainder; and only a
full-length write completes the send with SUCCESS.  The direct attempt
in isc__nm_async_tlssend behaves the same way, with the negative case
appending the request to the queue. -/
theorem c6_tls_send_outcomes (s : TlsDrainSock) (req : TlsReq)
    (tail : List TlsReq) (o : List SslWriteRv) (n : Nat)
    (hq : s.sends = req :: tail) :
    (s.nsending = 0 →
      tls_do_bio_drain_sends s (SslWriteRv.err :: o) =
        (s, [TlsEvent.doBioScheduled])) ∧
    (n ≠ req.len → s.server = true →
      tls_do_bio_drain_sends s (SslWriteRv.wrote n :: o) =
        ({ s with tlsState := TlsState.error },
          [TlsEvent.doBioScheduled])) ∧
    (req.len ≠ 0 → s.server = true →
      tls_do_bio_drain_sends s (SslWriteRv.wrote 0 :: o) =
        ({ s with tlsState := TlsState.error },
          [TlsEvent.doBioScheduled])) ∧
    (tls_do_bio_drain_sends s (SslWriteRv.wrote req.len :: o) =
      (let p := tls_do_bio_drain_sends { s with sends := tail } o
       (p.1, TlsEvent.sendCallbackEv req.id IscResult.success ::
             TlsEvent.reqPut req.id :: p.2))) ∧
    (s.sends = [] → isc__nm_async_tlssend s req false SslWriteRv.err =
      ({ s with sends := [req] }, [TlsEvent.doBioCalled])) ∧
    (s.sends = [] → n ≠ req.len →
      isc__nm_async_tlssend s req false (SslWriteRv.wrote n) =
        ({ s with tlsState := TlsState.error },
          [TlsEvent.doBioScheduled])) := by
  refine ⟨?_, ?_, ?_, ?_, ?_, ?_⟩
  · intro hn
    simp [tls_do_bio_drain_sends, hq, hn]
  · intro hn hs
    simp [tls_do_bio_drain_sends, hq, hn, hs]
  · intro hn hs
    have h0 : (0 : Nat) ≠ req.len := fun h => hn h.symm
    simp [tls_do_bio_drain_sends, hq, h0, hs]
  · simp [tls_do_bio_drain_sends, hq]
  · intro hempty
    rw [hempty] at hq
    exact absurd hq (by simp)
  · intro hempty
    rw [hempty] at hq
    exact absurd hq (by simp)

/-- Witness for C6's amended theorem: a zero-byte SSL_write on a
queued element of length 2 marks the stream TLS_ERROR. -/
theorem c6_tls_send_outcomes_witness :
    tls_do_bio_drain_sends
      { tlsState := TlsState.io, server := true, nsending := 0,
        sends := [{ id := 7, len := 2 }] }
      [SslWriteRv.wrote 0] =
      ({ tlsState := TlsState.error, server := true, nsending := 0,
         sends := [{ id := 7, len := 2 }] },
        [TlsEvent.doBioScheduled]) :=
  (c6_tls_send_outcomes
    { tlsState := TlsState.io, server := true, nsending := 0,
      sends := [{ id := 7, len := 2 }] }
    { id := 7, len := 2 } [] [] 5 rfl).2.2.1 (by decide) rfl

/-! ## C10: isc__nm_tcp_send / tcp_send_cb / isc__nm_async_tcpsend -/

/-- Observable actions of the TCP send path: the send callback with a
result, the release of the uvreq record, a statistics increment, and
the start of a uv_write. -/
inductive SendEvent where
  | sendCallbackEv (r : IscResult)
  | reqPut
  | statsIncrement (st : StatId)
  | writeStarted
  deriving DecidableEq, Repr

/-- Oracle inputs of one TCP send: whether inactive(sock) held when
the send was issued, whether the caller was on the socket's owning
worker, whether inactive(sock) held when tcp_send_direct ran, the
immediate return of uv_write, and the completion status later passed
to tcp_send_cb. -/
structure SendEnv where
  inactiveAtIssue : Bool
  sameTid : Bool
  inactiveAtRun : Bool
  uvWriteR : UvRet
  completionStatus : UvRet
  deriving DecidableEq, Repr

/-- tcp_send_direct (tcp.c): re-checks inactive(sock) and returns
CANCELED, otherwise starts uv_write and maps an immediate failure
through uverr2result. -/
def tcp_send_direct (inactiveAtRun : Bool) (uvWriteR : UvRet) :
    IscResult × List SendEvent :=
  if inactiveAtRun then
    (IscResult.canceled, [])
  else if uvWriteR ≠ UvRet.ok then
    (isc__nm_uverr2result uvWriteR, [])
  else
    (IscResult.success, [SendEvent.writeStarted])

/-- tcp_send_cb (tcp.c): completion callback of uv_write; a negative
status maps through uverr2result and increments the send-fail counter,
then the send callback fires with the result and the uvreq is
released. -/
def tcp_send_cb_run (status : UvRet) : List SendEvent :=
  if status ≠ UvRet.ok then
    [SendEvent.statsIncrement StatId.sendfail,
     SendEvent.sendCallbackEv (isc__nm_uverr2result status),
     SendEvent.reqPut]
  else
    [SendEvent.sendCallbackEv IscResult.success, SendEvent.reqPut]

/-- failed_send_cb (tcp.c) with a send callback installed: modelled
from the spec, isc__nm_sendcb delivers the callback with the result
and then releases the uvreq. -/
def failed_send_cb_run (e : IscResult) : List SendEvent :=
  [SendEvent.sendCallbackEv e, SendEvent.reqPut]

/-- isc__nm_async_tcpsend (tcp.c): runs tcp_send_direct on the owning
worker; on failure it increments the send-fail counter, invokes the
send callback with the result and releases the uvreq; on success the
completion is delivered by tcp_send_cb. -/
def isc__nm_async_tcpsend_run (inactiveAtRun : Bool) (uvWriteR : UvRet)
    (completionStatus : UvRet) : List SendEvent :=
  let d := tcp_send_direct inactiveAtRun uvWriteR
  if d.1 ≠ IscResult.success then
    SendEvent.statsIncrement StatId.sendfail :: failed_send_cb_run d.1
  else
    d.2 ++ tcp_send_cb_run completionStatus

/-- isc__nm_tcp_send (tcp.c): if the socket is inactive at issue time
the send fails immediately with CANCELED; an in-worker caller runs
tcp_send_direct synchronously (failures go through failed_send_cb);
an off-worker caller enqueues a tcpsend event whose handler is
isc__nm_async_tcpsend. -/
def isc__nm_tcp_send (env : SendEnv) : List SendEvent :=
  if env.inactiveAtIssue then
    SendEvent.statsIncrement StatId.sendfail ::
      failed_send_cb_run IscResult.canceled
  else if env.sameTid then
    let d := tcp_send_direct env.inactiveAtRun env.uvWriteR
    if d.1 ≠ IscResult.success then
      SendEvent.statsIncrement StatId.sendfail :: failed_send_cb_run d.1
    else
      d.2 ++ tcp_send_cb_run env.completionStatus
  else
    isc__nm_async_tcpsend_run env.inactiveAtRun env.uvWriteR
      env.completionStatus

/-- Test for a send-callback event. -/
def isSendCallback : SendEvent → Bool
  | SendEvent.sendCallbackEv _ => true
  | _ => false

/-- Test for a uvreq-release event. -/
def isReqPut : SendEvent → Bool
  | SendEvent.reqPut => true
  | _ => false

/-- The result the claim predicts for the single send callback:
CANCELED when the socket is inactive at issue time or when the send
runs, the mapped error when starting the uv_write fails, and otherwise
the write's mapped completion result. -/
def spec_send_completion_result (env : SendEnv) : IscResult :=
  if env.inactiveAtIssue then IscResult.canceled
  else if env.inactiveAtRun then IscResult.canceled
  else if env.uvWriteR ≠ UvRet.ok then isc__nm_uverr2result env.uvWriteR
  else isc__nm_uverr2result env.completionStatus

/-- C10: on every TCP send path the supplied send callback is invoked
exactly once, the uvreq is released exactly once, the release
immediately follows the callback, and the delivered result is CANCELED
for an inactive socket (at issue or at run time), the mapped error
when uv_write fails to start, and the write's completion result
otherwise. -/
theorem c10_send_callback_exactly_once (env : SendEnv) :
    ((isc__nm_tcp_send env).countP isSendCallback = 1) ∧
    ((isc__nm_tcp_send env).countP isReqPut = 1) ∧
    (isc__nm_tcp_send env).reverse.take 2 =
      [SendEvent.reqPut,
       SendEvent.sendCallbackEv (spec_send_completion_result env)] := by
  obtain ⟨i, t, r, w, c⟩ := env
  rcases i <;> rcases t <;> rcases r <;> rcases w <;> rcases c <;> decide

/-! ## C8: the DoH dns query-parameter parser -/

/-- Test for an ASCII hexadecimal digit. -/
def isHexDigitChar (c : Char) : Bool :=
  c.isDigit || (97 ≤ c.toNat && c.toNat ≤ 102) ||
    (65 ≤ c.toNat && c.toNat ≤ 70)

/-- Test for a character of the base64url alphabet (letters, digits,
minus, underscore). -/
def isBase64urlChar (c : Char) : Bool :=
  c.isAlpha || c.isDigit || c == '-' || c == '_'

/-- Modelled from the spec: validity of a parameter name or value in
the DoH query string (isc__nm_parse_doh_query_string lives in the
netmgr HTTP module, absent from the sources; only its tests are
present).  Characters come from the base64url alphabet, and a percent
sign must begin a percent escape of exactly two hexadecimal digits. -/
def validParamValue : List Char → Bool
  | [] => true
  | c :: rest =>
    if c = '%' then
      match rest with
      | a :: b :: rest2 =>
          isHexDigitChar a && isHexDigitChar b && validParamValue rest2
      | _ => false
    else isBase64urlChar c && validParamValue rest

/-- A percent escape in the list that is not a percent sign followed
by two hexadecimal digits. -/
def hasBadEscape : List Char → Bool
  | [] => false
  | c :: rest =>
    if c = '%' then
      match rest with
      | a :: b :: rest2 =>
          !(isHexDigitChar a && isHexDigitChar b) || hasBadEscape rest2
      | _ => true
    else hasBadEscape rest

/-- Split of a query string at every ampersand separator. -/
def splitOnAmp : List Char → List (List Char)
  | [] => [[]]
  | c :: rest =>
    if c = '&' then [] :: splitOnAmp rest
    else
      match splitOnAmp rest with
      | [] => [[c]]
      | s :: ss => (c :: s) :: ss

/-- Split of one parameter at its first equals sign into name and
value; none when the parameter has no equals sign. -/
def splitParam : List Char → Option (List Char × List Char)
  | [] => none
  | c :: rest =>
    if c = '=' then some ([], rest)
    else (splitParam rest).map (fun q => (c :: q.1, q.2))

/-- Modelled from the spec: validity of one name=value parameter; the
parameter must contain an equals sign, name and value must be
non-empty, and both must consist of base64url characters and valid
percent escapes. -/
def validParam (p : List Char) : Bool :=
  match splitParam p with
  | none => false
  | some (n, v) =>
      !n.isEmpty && !v.isEmpty && validParamValue n && validParamValue v

/-- A single trailing empty segment, produced by a query string ending
in an ampersand, is tolerated; empty segments elsewhere are not. -/
def dropTrailingEmpty (segs : List (List Char)) : List (List Char) :=
  match segs.getLast? with
  | some [] => segs.dropLast
  | _ => segs

/-- The name of the dns parameter. -/
def dnsName : List Char := ['d', 'n', 's']

/-- The value of the last parameter named dns among the segments. -/
def lastDns (segs : List (List Char)) : Option (List Char) :=
  segs.foldl
    (fun acc p =>
      match splitParam p with
      | some (n, v) => if n = dnsName then some v else acc
      | none => acc)
    none

/-- Removal of the optional leading question mark of a query string. -/
def stripLeadingQm (s : List Char) : List Char :=
  match s with
  | [] => []
  | c :: rest => if c = '?' then rest else c :: rest

/-- Modelled from the spec: isc__nm_parse_doh_query_string (netmgr
HTTP module, absent from the sources).  The query string may start
with or without a leading question mark; parameters are separated by
ampersands with one trailing ampersand tolerated; every parameter must
be a valid non-empty name=value with valid percent escapes, otherwise
the whole parse fails; the returned value is that of the last dns
parameter, and the parse fails when there is none. -/
def isc__nm_parse_doh_query_string (s : List Char) : Option (List Char) :=
  let s1 := stripLeadingQm s
  let segs := dropTrailingEmpty (splitOnAmp s1)
  if segs.isEmpty then none
  else if segs.all validParam then lastDns segs else none

example : isc__nm_parse_doh_query_string
    [ '?', 'd', 'n', 's', '=', '1', '2', '3', '&',
      'd', 'n', 's', '=', '5', '6', '7' ] =
    some ['5', '6', '7'] := by decide

example : isc__nm_parse_doh_query_string
    [ '?', 'n', '1', '=', 'a', '&', 'd', 'n', 's', '=', '5', '6', '7',
      '&', 'n', '2', '=', 'b', '&' ] = some ['5', '6', '7'] := by decide

example : isc__nm_parse_doh_query_string [] = none := by decide

example : isc__nm_parse_doh_query_string ['?', '&'] = none := by decide

example : isc__nm_parse_doh_query_string
    ['?', 'd', 'n', 's', '&'] = none := by decide

example : isc__nm_parse_doh_query_string
    ['?', 'd', 'n', 's', '=', '&'] = none := by decide

example : isc__nm_parse_doh_query_string
    ['?', 'd', 'n', 's', '=', '1', '2', '3', '&', '&'] = none := by decide

example : isc__nm_parse_doh_query_string
    ['?', 'd', 'n', 's', '=', '1', '2', '3', '%', '1', '2', '&'] =
    some ['1', '2', '3', '%', '1', '2'] := by decide

example : isc__nm_parse_doh_query_string
    ['?', 'd', 'n', 's', '=', '1', '2', '3', '%', 'Z', 'Z', '&'] =
    none := by decide

example : isc__nm_parse_doh_query_string
    ['?', 'd', 'n', 's', '=', '1', '2', '3', '%', '%', '&'] =
    none := by decide

example : isc__nm_parse_doh_query_string
    ['?', 'd', 'n', 's', '=', '1', '2', '3', '%', 'A', 'Z', '&'] =
    none := by decide

example : isc__nm_parse_doh_query_string
    ['?', 'd', 'n', 's', '=', '1', '2', '3', '%', '0', 'A', 'Z', '&'] =
    some ['1', '2', '3', '%', '0', 'A', 'Z'] := by decide

/-- One rendered name=value parameter. -/
def renderParam (nv : List Char × List Char) : List Char :=
  nv.1 ++ '=' :: nv.2

/-- A rendered query string: parameters joined by ampersands. -/
def renderQuery : List (List Char × List Char) → List Char
  | [] => []
  | [nv] => renderParam nv
  | nv :: rest => renderParam nv ++ '&' :: renderQuery rest

/-- The value of the last parameter named dns among a list of
name-value pairs, the claim's notion of the winning dns parameter. -/
def pairsLastDns (ps : List (List Char × List Char)) : Option (List Char) :=
  ps.foldl (fun acc nv => if nv.1 = dnsName then some nv.2 else acc) none

theorem splitOnAmp_ne_nil (l : List Char) : splitOnAmp l ≠ [] := by
  induction l with
  | nil => simp [splitOnAmp]
  | cons c rest ih =>
    by_cases hc : c = '&'
    · simp [splitOnAmp, hc]
    · cases h : splitOnAmp rest with
      | nil => simp [splitOnAmp, hc, h]
      | cons s ss => simp [splitOnAmp, hc, h]

theorem splitOnAmp_no_amp (l : List Char) (h : '&' ∉ l) :
    splitOnAmp l = [l] := by
  induction l with
  | nil => simp [splitOnAmp]
  | cons c rest ih =>
    have hc : ¬ c = '&' := fun hx => h (hx ▸ List.mem_cons_self c rest)
    have hr := ih (fun hx => h (List.mem_cons_of_mem c hx))
    simp [splitOnAmp, hc, hr]

theorem splitOnAmp_append (a b : List Char) (h : '&' ∉ a) :
    splitOnAmp (a ++ '&' :: b) = a :: splitOnAmp b := by
  induction a with
  | nil => simp [splitOnAmp]
  | cons c rest ih =>
    have hc : ¬ c = '&' := fun hx => h (hx ▸ List.mem_cons_self c rest)
    have hr := ih (fun hx => h (List.mem_cons_of_mem c hx))
    simp only [List.cons_append, splitOnAmp, hc, if_false]
    have hr2 : splitOnAmp (rest.append ('&' :: b)) = rest :: splitOnAmp b :=
      hr
    rw [hr2]

theorem renderParam_ne_nil (nv : List Char × List Char) :
    renderParam nv ≠ [] := by
  cases h : nv.1 <;> simp [renderParam, h]

theorem splitOnAmp_renderQuery (ps : List (List Char × List Char))
    (hne : ps ≠ []) (h : ∀ nv ∈ ps, '&' ∉ renderParam nv) :
    splitOnAmp (renderQuery ps) = ps.map renderParam := by
  induction ps with
  | nil => exact absurd rfl hne
  | cons nv rest ih =>
    cases rest with
    | nil =>
        simp [renderQuery,
          splitOnAmp_no_amp _ (h nv (List.mem_cons_self nv []))]
    | cons q qs =>
        have h1 : renderQuery (nv :: q :: qs) =
            renderParam nv ++ '&' :: renderQuery (q :: qs) := rfl
        rw [h1, splitOnAmp_append _ _ (h nv (List.mem_cons_self nv _)),
            ih (by simp) (fun p hp => h p (List.mem_cons_of_mem nv hp))]
        simp

theorem splitParam_render (n v : List Char) (hn : '=' ∉ n) :
    splitParam (n ++ '=' :: v) = some (n, v) := by
  induction n with
  | nil => simp [splitParam]
  | cons c cs ih =>
    have hc : ¬ c = '=' := fun hx => hn (hx ▸ List.mem_cons_self c cs)
    have hr := ih (fun hx => hn (List.mem_cons_of_mem c hx))
    simp [splitParam, hc, hr]


theorem isHexDigitChar_ne (x : Char) (h : isHexDigitChar x = true) :
    x ≠ '&' ∧ x ≠ '=' := by
  refine ⟨?_, ?_⟩ <;> intro hx <;> subst hx <;> revert h <;> decide

theorem isBase64urlChar_ne (x : Char) (h : isBase64urlChar x = true) :
    x ≠ '&' ∧ x ≠ '=' := by
  refine ⟨?_, ?_⟩ <;> intro hx <;> subst hx <;> revert h <;> decide

theorem validParamValue_cons_ne (a : Char) (b : List Char)
    (hc : ¬ a = '%') :
    validParamValue (a :: b) = (isBase64urlChar a && validParamValue b) := by
  rcases b with _ | ⟨x, b2⟩
  · simp [validParamValue, hc]
  · rcases b2 with _ | ⟨y, b3⟩ <;> simp [validParamValue, hc]

theorem validParamValue_pct (a b : Char) (rest2 : List Char) :
    validParamValue ('%' :: a :: b :: rest2) =
      (isHexDigitChar a && isHexDigitChar b && validParamValue rest2) := by
  simp [validParamValue]

theorem hasBadEscape_cons_ne (a : Char) (b : List Char) (hc : ¬ a = '%') :
    hasBadEscape (a :: b) = hasBadEscape b := by
  rcases b with _ | ⟨x, b2⟩
  · simp [hasBadEscape, hc]
  · rcases b2 with _ | ⟨y, b3⟩ <;> simp [hasBadEscape, hc]

theorem hasBadEscape_pct (a b : Char) (rest2 : List Char) :
    hasBadEscape ('%' :: a :: b :: rest2) =
      (!(isHexDigitChar a && isHexDigitChar b) || hasBadEscape rest2) := by
  simp [hasBadEscape]

theorem validParamValue_no_sep (l : List Char)
    (h : validParamValue l = true) : '&' ∉ l ∧ '=' ∉ l := by
  induction l using validParamValue.induct with
  | case1 => simp
  | case2 a b rest2 ih =>
      rw [validParamValue_pct] at h
      simp only [Bool.and_eq_true] at h
      obtain ⟨⟨ha, hb⟩, hrest⟩ := h
      obtain ⟨iha, ihe⟩ := ih hrest
      obtain ⟨ha1, ha2⟩ := isHexDigitChar_ne a ha
      obtain ⟨hb1, hb2⟩ := isHexDigitChar_ne b hb
      constructor <;> intro hmem <;>
        simp only [List.mem_cons] at hmem <;>
        rcases hmem with h1 | h1 | h1 | h1 <;>
        first
          | exact absurd h1.symm (by decide)
          | exact absurd h1.symm ha1
          | exact absurd h1.symm ha2
          | exact absurd h1.symm hb1
          | exact absurd h1.symm hb2
          | exact iha h1
          | exact ihe h1
  | case3 a hne =>
      exfalso
      rcases a with _ | ⟨x, a2⟩
      · simp [validParamValue] at h
      · rcases a2 with _ | ⟨y, a3⟩
        · simp [validParamValue] at h
        · exact hne x y a3 rfl
  | case4 a b hc ih =>
      rw [validParamValue_cons_ne a b hc] at h
      simp only [Bool.and_eq_true] at h
      obtain ⟨ha, hrest⟩ := h
      obtain ⟨iha, ihe⟩ := ih hrest
      obtain ⟨ha1, ha2⟩ := isBase64urlChar_ne a ha
      constructor <;> intro hmem <;>
        simp only [List.mem_cons] at hmem <;>
        rcases hmem with h1 | h1 <;>
        first
          | exact absurd h1.symm ha1
          | exact absurd h1.symm ha2
          | exact iha h1
          | exact ihe h1

theorem validParamValue_head_ne_qm (c : Char) (rest : List Char)
    (h : validParamValue (c :: rest) = true) : c ≠ '?' := by
  intro hc
  subst hc
  rw [validParamValue_cons_ne _ _ (by decide)] at h
  rw [show isBase64urlChar '?' = false from by decide] at h
  simp at h

theorem hasBadEscape_not_valid (l : List Char)
    (h : hasBadEscape l = true) : validParamValue l = false := by
  induction l using hasBadEscape.induct with
  | case1 => simp [hasBadEscape] at h
  | case2 a b rest2 ih =>
      rw [hasBadEscape_pct] at h
      rw [validParamValue_pct]
      simp only [Bool.or_eq_true, Bool.not_eq_eq_eq_not, Bool.not_true,
        Bool.and_eq_false_iff] at h
      rcases h with h | h
      · rcases h with h | h <;> simp [h]
      · simp [ih h]
  | case3 a hne =>
      rcases a with _ | ⟨x, a2⟩
      · simp [validParamValue]
      · rcases a2 with _ | ⟨y, a3⟩
        · simp [validParamValue]
        · exact (hne x y a3 rfl).elim
  | case4 a b hc ih =>
      rw [hasBadEscape_cons_ne a b hc] at h
      rw [validParamValue_cons_ne a b hc, ih h]
      simp

theorem dropTrailingEmpty_map_render (ps : List (List Char × List Char)) :
    dropTrailingEmpty (ps.map renderParam) = ps.map renderParam := by
  unfold dropTrailingEmpty
  cases hlast : (ps.map renderParam).getLast? with
  | none => rfl
  | some x =>
    cases x with
    | nil =>
        exfalso
        obtain ⟨hne, hx⟩ := List.mem_getLast?_eq_getLast hlast
        have hmem : ([] : List Char) ∈ ps.map renderParam :=
          hx ▸ List.getLast_mem hne
        obtain ⟨nv, _, hnv⟩ := List.mem_map.mp hmem
        exact renderParam_ne_nil nv hnv
    | cons c cs => rfl

theorem lastDns_render (ps : List (List Char × List Char))
    (h : ∀ nv ∈ ps, '=' ∉ nv.1) :
    lastDns (ps.map renderParam) = pairsLastDns ps := by
  unfold lastDns pairsLastDns
  rw [List.foldl_map]
  apply List.foldl_ext
  intro acc nv hnv
  have hsp : splitParam (renderParam nv) = some (nv.1, nv.2) :=
    splitParam_render nv.1 nv.2 (h nv hnv)
  rw [hsp]

theorem pairsLastDns_no_dns (ps : List (List Char × List Char))
    (h : ∀ nv ∈ ps, nv.1 ≠ dnsName) (acc : Option (List Char)) :
    ps.foldl (fun a nv => if nv.1 = dnsName then some nv.2 else a) acc =
      acc := by
  induction ps generalizing acc with
  | nil => rfl
  | cons nv rest ih =>
      simp only [List.foldl_cons]
      rw [if_neg (h nv (List.mem_cons_self nv rest))]
      exact ih (fun p hp => h p (List.mem_cons_of_mem _ hp)) acc

theorem pairsLastDns_last (ps1 ps2 : List (List Char × List Char))
    (v : List Char) (h2 : ∀ nv ∈ ps2, nv.1 ≠ dnsName) :
    pairsLastDns (ps1 ++ (dnsName, v) :: ps2) = some v := by
  unfold pairsLastDns
  rw [List.foldl_append, List.foldl_cons]
  rw [if_pos rfl]
  exact pairsLastDns_no_dns ps2 h2 (some v)

theorem validParam_render_eq (nv : List Char × List Char)
    (hn : '=' ∉ nv.1) :
    validParam (renderParam nv) =
      (!nv.1.isEmpty && !nv.2.isEmpty && validParamValue nv.1 &&
        validParamValue nv.2) := by
  unfold validParam renderParam
  rw [splitParam_render _ _ hn]

theorem renderParam_no_amp (nv : List Char × List Char)
    (h3 : validParamValue nv.1 = true) (hv : '&' ∉ nv.2) :
    '&' ∉ renderParam nv := by
  unfold renderParam
  intro hmem
  rcases List.mem_append.mp hmem with h | h
  · exact (validParamValue_no_sep _ h3).1 h
  · rcases List.mem_cons.mp h with h | h
    · exact absurd h (by decide)
    · exact hv h

theorem stripLeadingQm_renderQuery (nv : List Char × List Char)
    (rest : List (List Char × List Char))
    (h1 : nv.1 ≠ []) (h3 : validParamValue nv.1 = true) :
    stripLeadingQm (renderQuery (nv :: rest)) =
      renderQuery (nv :: rest) := by
  rcases hn : nv.1 with _ | ⟨c, cs⟩
  · exact absurd hn h1
  · have hc : ¬ c = '?' :=
      validParamValue_head_ne_qm c cs (hn ▸ h3)
    have hr : ∃ t, renderQuery (nv :: rest) = c :: t := by
      cases rest with
      | nil =>
          exact ⟨cs ++ '=' :: nv.2, by simp [renderQuery, renderParam, hn]⟩
      | cons q qs =>
          refine ⟨cs ++ '=' :: nv.2 ++ '&' :: renderQuery (q :: qs), ?_⟩
          have he : renderQuery (nv :: q :: qs) =
              renderParam nv ++ '&' :: renderQuery (q :: qs) := rfl
          rw [he]
          simp [renderParam, hn]
    obtain ⟨t, ht⟩ := hr
    rw [ht]
    simp [stripLeadingQm, hc]

theorem isEmpty_false_of_ne_nil {α : Type} (l : List α) (h : l ≠ []) :
    l.isEmpty = false := by
  cases l with
  | nil => exact absurd rfl h
  | cons a t => rfl

theorem parse_render_valid (ps : List (List Char × List Char))
    (hne : ps ≠ [])
    (hgood : ∀ nv ∈ ps, nv.1 ≠ [] ∧ nv.2 ≠ [] ∧
      validParamValue nv.1 = true ∧ validParamValue nv.2 = true) :
    isc__nm_parse_doh_query_string ('?' :: renderQuery ps) =
      pairsLastDns ps ∧
    isc__nm_parse_doh_query_string (renderQuery ps) = pairsLastDns ps := by
  have hamp : ∀ nv ∈ ps, '&' ∉ renderParam nv := by
    intro nv hnv
    obtain ⟨h1, h2, h3, h4⟩ := hgood nv hnv
    exact renderParam_no_amp nv h3 (validParamValue_no_sep _ h4).1
  have hsplit := splitOnAmp_renderQuery ps hne hamp
  have hdrop := dropTrailingEmpty_map_render ps
  have hvalid : (ps.map renderParam).all validParam = true := by
    rw [List.all_eq_true]
    intro seg hseg
    obtain ⟨nv, hnv, hseg2⟩ := List.mem_map.mp hseg
    obtain ⟨h1, h2, h3, h4⟩ := hgood nv hnv
    rw [← hseg2, validParam_render_eq nv (validParamValue_no_sep _ h3).2]
    simp [h3, h4, isEmpty_false_of_ne_nil _ h1, isEmpty_false_of_ne_nil _ h2]
  have hlast : lastDns (ps.map renderParam) = pairsLastDns ps := by
    apply lastDns_render
    intro nv hnv
    exact (validParamValue_no_sep _ (hgood nv hnv).2.2.1).2
  have hnonempty : (ps.map renderParam).isEmpty = false := by
    apply isEmpty_false_of_ne_nil
    intro hx
    exact hne (List.map_eq_nil_iff.mp hx)
  constructor
  · have hstrip : stripLeadingQm ('?' :: renderQuery ps) = renderQuery ps := by
      simp [stripLeadingQm]
    simp only [isc__nm_parse_doh_query_string, hstrip, hsplit, hdrop,
      hvalid, hnonempty, hlast]
    simp
  · obtain ⟨nv0, rest0, rfl⟩ : ∃ nv0 rest0, ps = nv0 :: rest0 := by
      cases ps with
      | nil => exact absurd rfl hne
      | cons a t => exact ⟨a, t, rfl⟩
    have hstrip := stripLeadingQm_renderQuery nv0 rest0
      (hgood nv0 (List.mem_cons_self nv0 rest0)).1
      (hgood nv0 (List.mem_cons_self nv0 rest0)).2.2.1
    simp only [isc__nm_parse_doh_query_string, hstrip, hsplit, hdrop,
      hvalid, hnonempty, hlast]
    simp

theorem parse_render_invalid (ps : List (List Char × List Char))
    (nv : List Char × List Char) (hmem : nv ∈ ps)
    (hwf : ∀ p ∈ ps, p.1 ≠ [] ∧ validParamValue p.1 = true ∧ '&' ∉ p.2)
    (hbad : validParam (renderParam nv) = false) :
    isc__nm_parse_doh_query_string ('?' :: renderQuery ps) = none ∧
    isc__nm_parse_doh_query_string (renderQuery ps) = none := by
  have hne : ps ≠ [] := List.ne_nil_of_mem hmem
  have hamp : ∀ p ∈ ps, '&' ∉ renderParam p := fun p hp =>
    renderParam_no_amp p (hwf p hp).2.1 (hwf p hp).2.2
  have hsplit := splitOnAmp_renderQuery ps hne hamp
  have hdrop := dropTrailingEmpty_map_render ps
  have hall : (ps.map renderParam).all validParam = false := by
    cases hv : (ps.map renderParam).all validParam with
    | false => rfl
    | true =>
        have hx := List.all_eq_true.mp hv (renderParam nv)
          (List.mem_map_of_mem renderParam hmem)
        rw [hbad] at hx
        exact absurd hx (by decide)
  constructor
  · have hstrip : stripLeadingQm ('?' :: renderQuery ps) = renderQuery ps := by
      simp [stripLeadingQm]
    simp only [isc__nm_parse_doh_query_string, hstrip, hsplit, hdrop, hall]
    cases (ps.map renderParam).isEmpty <;> simp
  · obtain ⟨nv0, rest0, rfl⟩ : ∃ nv0 rest0, ps = nv0 :: rest0 := by
      cases ps with
      | nil => exact absurd rfl hne
      | cons a t => exact ⟨a, t, rfl⟩
    have hstrip := stripLeadingQm_renderQuery nv0 rest0
      (hwf nv0 (List.mem_cons_self nv0 rest0)).1
      (hwf nv0 (List.mem_cons_self nv0 rest0)).2.1
    simp only [isc__nm_parse_doh_query_string, hstrip, hsplit, hdrop, hall]
    cases ((nv0 :: rest0).map renderParam).isEmpty <;> simp

/-- C8: for query strings made of well-formed name=value parameters
(with or without the leading question mark, parameters separated by
ampersands), the parser returns the value of the last dns parameter;
a parameter whose percent escapes fail the two-hexadecimal-digit
validation makes the whole parse fail; and a parameter with an empty
value makes the whole parse fail. -/
theorem c8_doh_query_parse :
    (∀ (ps1 ps2 : List (List Char × List Char)) (v : List Char),
      (∀ nv ∈ ps1 ++ (dnsName, v) :: ps2, nv.1 ≠ [] ∧ nv.2 ≠ [] ∧
        validParamValue nv.1 = true ∧ validParamValue nv.2 = true) →
      (∀ nv ∈ ps2, nv.1 ≠ dnsName) →
      isc__nm_parse_doh_query_string
        ('?' :: renderQuery (ps1 ++ (dnsName, v) :: ps2)) = some v ∧
      isc__nm_parse_doh_query_string
        (renderQuery (ps1 ++ (dnsName, v) :: ps2)) = some v) ∧
    (∀ (ps : List (List Char × List Char)) (nv : List Char × List Char),
      nv ∈ ps →
      (∀ p ∈ ps, p.1 ≠ [] ∧ validParamValue p.1 = true ∧ '&' ∉ p.2) →
      hasBadEscape nv.2 = true →
      isc__nm_parse_doh_query_string ('?' :: renderQuery ps) = none ∧
      isc__nm_parse_doh_query_string (renderQuery ps) = none) ∧
    (∀ (ps : List (List Char × List Char)) (nv : List Char × List Char),
      nv ∈ ps →
      (∀ p ∈ ps, p.1 ≠ [] ∧ validParamValue p.1 = true ∧ '&' ∉ p.2) →
      nv.2 = [] →
      isc__nm_parse_doh_query_string ('?' :: renderQuery ps) = none ∧
      isc__nm_parse_doh_query_string (renderQuery ps) = none) := by
  refine ⟨?_, ?_, ?_⟩
  · intro ps1 ps2 v hgood hnodns
    have hne : ps1 ++ (dnsName, v) :: ps2 ≠ [] := by simp
    have h := parse_render_valid _ hne hgood
    rw [pairsLastDns_last ps1 ps2 v hnodns] at h
    exact h
  · intro ps nv hmem hwf hbe
    apply parse_render_invalid ps nv hmem hwf
    rw [validParam_render_eq nv
      (validParamValue_no_sep _ (hwf nv hmem).2.1).2]
    rw [hasBadEscape_not_valid _ hbe]
    simp
  · intro ps nv hmem hwf hv2
    apply parse_render_invalid ps nv hmem hwf
    rw [validParam_render_eq nv
      (validParamValue_no_sep _ (hwf nv hmem).2.1).2]
    rw [hv2]
    simp

/-- Witness for C8 at a concrete query string with two dns parameters:
the last one wins. -/
theorem c8_doh_query_parse_witness :
    isc__nm_parse_doh_query_string
      ('?' :: renderQuery
        [(dnsName, ['1', '2', '3']), (dnsName, ['5', '6', '7'])]) =
      some ['5', '6', '7'] :=
  (c8_doh_query_parse.1 [(dnsName, ['1', '2', '3'])] []
    ['5', '6', '7'] (by decide) (by decide)).1

/-! ## C9: base64url to base64 conversion and its inverse -/

/-- The base64url-to-base64 character substitution: minus becomes
plus, underscore becomes slash, all else is kept. -/
def b64urlRepl (c : Char) : Char :=
  if c = '-' then '+' else if c = '_' then '/' else c

/-- The base64-to-base64url character substitution: plus becomes
minus, slash becomes underscore. -/
def b64Repl (c : Char) : Char :=
  if c = '+' then '-' else if c = '/' then '_' else c

/-- Modelled from the spec: the character scan of
isc__nm_base64url_to_base64 (netmgr HTTP module, absent from the
sources; only its tests are present): every character is substituted,
and an equals sign or percent sign anywhere rejects the input. -/
def base64urlBody : List Char → Option (List Char)
  | [] => some []
  | c :: rest =>
    if c = '=' ∨ c = '%' then none
    else (base64urlBody rest).map (fun t => b64urlRepl c :: t)

/-- Modelled from the spec: the character scan of
isc__nm_base64_to_base64url; a minus or underscore anywhere rejects
the input. -/
def base64Body : List Char → Option (List Char)
  | [] => some []
  | c :: rest =>
    if c = '-' ∨ c = '_' then none
    else (base64Body rest).map (fun t => b64Repl c :: t)

/-- Equals-sign padding appended until the length is a multiple of
four. -/
def padTo4 (l : List Char) : List Char :=
  l ++ List.replicate ((4 - l.length % 4) % 4) '='

/-- Removal of the trailing equals-sign padding. -/
def dropTrailingEq (l : List Char) : List Char :=
  (l.reverse.dropWhile (fun c => c == '=')).reverse

/-- Modelled from the spec: isc__nm_base64url_to_base64 (netmgr HTTP
module, absent from the sources).  A null buffer or empty input is
rejected; minus and underscore are replaced by plus and slash; an
input containing an equals or percent sign is rejected; equals-sign
padding is appended until the output length reaches a multiple of
four; the output length is reported alongside the output. -/
def isc__nm_base64url_to_base64 (str : Option (List Char)) :
    Option (List Char × Nat) :=
  match str with
  | none => none
  | some s =>
    if s.isEmpty then none
    else (base64urlBody s).map (fun t => (padTo4 t, (padTo4 t).length))

/-- Modelled from the spec: isc__nm_base64_to_base64url (netmgr HTTP
module, absent from the sources).  A null buffer or empty input is
rejected; the equals-sign padding is stripped; plus and slash are
replaced by minus and underscore; an input containing a minus or
underscore is rejected; the output length is reported alongside the
output. -/
def isc__nm_base64_to_base64url (str : Option (List Char)) :
    Option (List Char × Nat) :=
  match str with
  | none => none
  | some s =>
    if s.isEmpty then none
    else (base64Body (dropTrailingEq s)).map (fun t => (t, t.length))

example : isc__nm_base64url_to_base64
    (some ['P', 'D', 'w', '_', 'P', 'z', '8', '-', 'P', 'g']) =
    some (['P', 'D', 'w', '/', 'P', 'z', '8', '+', 'P', 'g', '=', '='],
      12) := by decide

example : isc__nm_base64url_to_base64
    (some ['P', 'D', 'w', '_', 'P', 'z', '8', '-', 'P', 'g', '=', '=']) =
    none := by decide

example : isc__nm_base64url_to_base64
    (some ['P', 'D', 'w', '_', 'P', 'g', '%', '3', 'D']) = none := by
  decide

example : isc__nm_base64url_to_base64 (some []) = none := by decide

example : isc__nm_base64_to_base64url
    (some ['P', 'D', 'w', '/', 'P', 'z', '8', '+', 'P', 'g', '=', '=']) =
    some (['P', 'D', 'w', '_', 'P', 'z', '8', '-', 'P', 'g'], 10) := by
  decide

example : isc__nm_base64_to_base64url
    (some ['P', 'D', 'w', '_', 'P', 'z', '8', '-', 'P', 'g', '=', '=']) =
    none := by decide

theorem base64urlBody_none (s : List Char) (h : '=' ∈ s ∨ '%' ∈ s) :
    base64urlBody s = none := by
  induction s with
  | nil => simp at h
  | cons c rest ih =>
      by_cases hc : c = '=' ∨ c = '%'
      · simp [base64urlBody, hc]
      · have hr : '=' ∈ rest ∨ '%' ∈ rest := by
          rcases h with h | h <;> rcases List.mem_cons.mp h with h1 | h1
          · exact absurd (Or.inl h1.symm) hc
          · exact Or.inl h1
          · exact absurd (Or.inr h1.symm) hc
          · exact Or.inr h1
        simp [base64urlBody, hc, ih hr]

theorem base64urlBody_some (s : List Char) (h1 : '=' ∉ s) (h2 : '%' ∉ s) :
    base64urlBody s = some (s.map b64urlRepl) := by
  induction s with
  | nil => simp [base64urlBody]
  | cons c rest ih =>
      have hc : ¬(c = '=' ∨ c = '%') := by
        rintro (hx | hx) <;> subst hx
        · exact h1 (List.mem_cons_self _ _)
        · exact h2 (List.mem_cons_self _ _)
      have hrest := ih (fun hx => h1 (List.mem_cons_of_mem _ hx))
        (fun hx => h2 (List.mem_cons_of_mem _ hx))
      simp [base64urlBody, hc, hrest]

theorem padTo4_length_mod (l : List Char) : (padTo4 l).length % 4 = 0 := by
  simp only [padTo4, List.length_append, List.length_replicate]
  omega

/-- C9: the base64url-to-base64 conversion of any non-empty input
containing an equals or percent sign is rejected; otherwise the output
is the character-substituted input followed by equals-sign padding to
a multiple of four, with the output length reported; both directions
reject a null buffer and empty input, and both report the length of
the output they produce. -/
theorem c9_base64url_conversion :
    (∀ s : List Char, s ≠ [] →
      (('=' ∈ s ∨ '%' ∈ s) →
        isc__nm_base64url_to_base64 (some s) = none) ∧
      ('=' ∉ s → '%' ∉ s →
        isc__nm_base64url_to_base64 (some s) =
          some (s.map b64urlRepl ++
              List.replicate ((4 - (s.map b64urlRepl).length % 4) % 4) '=',
            (padTo4 (s.map b64urlRepl)).length) ∧
        (padTo4 (s.map b64urlRepl)).length % 4 = 0)) ∧
    isc__nm_base64url_to_base64 none = none ∧
    isc__nm_base64url_to_base64 (some []) = none ∧
    isc__nm_base64_to_base64url none = none ∧
    isc__nm_base64_to_base64url (some []) = none ∧
    (∀ s r, isc__nm_base64url_to_base64 (some s) = some r →
      r.2 = r.1.length) ∧
    (∀ s r, isc__nm_base64_to_base64url (some s) = some r →
      r.2 = r.1.length) := by
  refine ⟨?_, rfl, rfl, rfl, rfl, ?_, ?_⟩
  · intro s hs
    constructor
    · intro h
      simp [isc__nm_base64url_to_base64, isEmpty_false_of_ne_nil s hs,
        base64urlBody_none s h]
    · intro h1 h2
      refine ⟨?_, padTo4_length_mod _⟩
      simp [isc__nm_base64url_to_base64, isEmpty_false_of_ne_nil s hs,
        base64urlBody_some s h1 h2, padTo4]
  · intro s r h
    simp only [isc__nm_base64url_to_base64] at h
    by_cases hs : s.isEmpty
    · rw [if_pos hs] at h
      exact absurd h (by simp)
    · rw [if_neg hs] at h
      cases hb : base64urlBody s with
      | none => rw [hb] at h; exact absurd h (by simp)
      | some t =>
          rw [hb] at h
          have h2 : (padTo4 t, (padTo4 t).length) = r := Option.some.inj h
          rw [← h2]
  · intro s r h
    simp only [isc__nm_base64_to_base64url] at h
    by_cases hs : s.isEmpty
    · rw [if_pos hs] at h
      exact absurd h (by simp)
    · rw [if_neg hs] at h
      cases hb : base64Body (dropTrailingEq s) with
      | none => rw [hb] at h; exact absurd h (by simp)
      | some t =>
          rw [hb] at h
          have h2 : (t, t.length) = r := Option.some.inj h
          rw [← h2]

/-- Witness for C9 at the concrete test vector from the DoH tests. -/
theorem c9_base64url_conversion_witness :
    isc__nm_base64url_to_base64
      (some ['P', 'D', 'w', '_', 'P', 'z', '8', '-', 'P', 'g']) =
      some (['P', 'D', 'w', '/', 'P', 'z', '8', '+', 'P', 'g', '=', '='],
        12) := by
  have h := ((c9_base64url_conversion.1
    ['P', 'D', 'w', '_', 'P', 'z', '8', '-', 'P', 'g']
    (by decide)).2 (by decide) (by decide)).1
  rw [h]
  decide
